/-
Verification of the numa-vmstat-logger toolkit against its specification.

The development shallowly embeds the two C programs in
src/inference_engine/change_policy.c (the policy invocation tool and the
NUMA statistics logger) together with the benchmark driver shell script
src/data_collection/rocksdb/benchmark_script.sh.

Modelling conventions:
* C `unsigned` (32-bit) values are Nat, reduced `% 2^32` where stored;
  `unsigned long` node-mask words are Nat with bit operations (values stay
  below 2^64 by construction, so no explicit wrap is needed).
* C `double` arithmetic (interval_sec, the duration division and the
  nanosleep argument) is idealised as exact rational arithmetic; the
  C casts `(int)`/`(long)` of positive values are `Int.floor`.
* File reads are oracles: a source file is `Option` of its parsed
  contents (`none` = fopen failed).  The line/token scanning done by
  fgets/strstr/sscanf and fscanf("%127s %u") is abstracted to structured
  lines (`MemLine`) and key/value pairs, preserving the first-match flag
  logic, the early-break counts and the update order of the C loops.
* The process-level behaviour of the logger main (header creation, the
  sampling loop, the run-mode child check and final wait, the exit code)
  is a fuel-indexed state machine producing the exact strings fprintf
  would emit.
-/
import Mathlib

namespace NVL

/-! ## Policy invocation tool (first `main` in change_policy.c) -/

/-- Bits in a C `unsigned long` on the target (LP64): `sizeof(unsigned long) * 8`. -/
def wordBits : Nat := 64

/-- Number of mask words allocated by
`calloc((nodecount + sizeof(unsigned long)*8 - 1) / (sizeof(unsigned long)*8), ...)`. -/
def nmaskWords (nodecount : Nat) : Nat := (nodecount + wordBits - 1) / wordBits

/-- One step of the bit-setting loop:
`nmask[i / 64] |= 1UL << (i % 64)` (change_policy.c line 32). -/
def orBit (m : List Nat) (i : Nat) : List Nat :=
  m.set (i / wordBits) ((m.getD (i / wordBits) 0) ||| (1 <<< (i % wordBits)))

/-- The node mask built by the tool: calloc zero-fill followed by the
`for (i = 0; i < nodecount; i++)` bit-setting loop. -/
def buildNmask (nodecount : Nat) : List Nat :=
  (List.range nodecount).foldl orBit (List.replicate (nmaskWords nodecount) 0)

/-- Whether bit `j` of a word-array mask is set. -/
def maskTestBit (m : List Nat) (j : Nat) : Bool :=
  (m.getD (j / wordBits) 0).testBit (j % wordBits)

/-- Observable outcome of one run of the policy invocation tool's `main`. -/
structure CPOutcome where
  exitCode : Nat
  /-- usage line printed to stderr -/
  usageError : Bool
  /-- perror("calloc") printed to stderr -/
  allocError : Bool
  /-- perror("syscall"): an OS-provided error description on stderr -/
  syscallErrorReported : Bool
  /-- "Syscall succeeded" printed to stdout -/
  successMsg : Bool
  /-- free(nmask) executed -/
  freedMask : Bool
  deriving Repr, DecidableEq

/-- The policy tool's `main`, indexed by the number of arguments after the
program name, whether calloc succeeds, and the syscall return value. -/
def change_policy_main (nargs : Nat) (allocOk : Bool) (syscallRet : Int) : CPOutcome :=
  if nargs < 3 then
    { exitCode := 1, usageError := true, allocError := false,
      syscallErrorReported := false, successMsg := false, freedMask := false }
  else if !allocOk then
    { exitCode := 1, usageError := false, allocError := true,
      syscallErrorReported := false, successMsg := false, freedMask := false }
  else if syscallRet ≠ 0 then
    { exitCode := 0, usageError := false, allocError := false,
      syscallErrorReported := true, successMsg := false, freedMask := true }
  else
    { exitCode := 0, usageError := false, allocError := false,
      syscallErrorReported := false, successMsg := true, freedMask := true }

/-! ## Statistics logger: data records and source parsers -/

/-- Modulus of C `unsigned` (32-bit). -/
def U32 : Nat := 2 ^ 32

/-- C unsigned subtraction `a - b` modulo `2^32`. -/
def usub (a b : Nat) : Nat := (a % U32 + (U32 - b % U32)) % U32

/-- `struct node_meminfo`. -/
structure NodeMeminfo where
  mem_total : Nat
  mem_used : Nat
  deriving Repr, DecidableEq

/-- `struct node_vmstat`. -/
structure NodeVmStat where
  nr_free_pages : Nat
  numa_hit : Nat
  numa_miss : Nat
  numa_foreign : Nat
  numa_interleave : Nat
  numa_local : Nat
  numa_other : Nat
  deriving Repr, DecidableEq

/-- `struct sys_vmstat`. -/
structure SysVmStat where
  numa_pte_updates : Nat
  numa_huge_pte_updates : Nat
  numa_pages_migrated : Nat
  pgmigrate_success : Nat
  pgmigrate_fail : Nat
  thp_migration_success : Nat
  thp_migration_fail : Nat
  thp_migration_split : Nat
  deriving Repr, DecidableEq

/-- One line of a per-node meminfo source, as classified by the
`strstr(line, "Node <i> MemTotal:")` / `strstr(line, "Node <i> MemFree:")`
matching plus the `sscanf("%u")` of the value. -/
inductive MemLine where
  | total (node : Nat) (val : Nat)
  | free (node : Nat) (val : Nat)
  | other
  deriving Repr, DecidableEq

/-- Whether a meminfo line is one of node `i`'s two recognised lines. -/
def MemLine.matchesNode (i : Nat) : MemLine → Bool
  | .total nid _ => nid == i
  | .free nid _ => nid == i
  | .other => false

/-- The fgets loop of `parse_node_meminfo`: first-match flags `found_total`
and `found_free`, `mem_used = nm->mem_total - val` using the current (possibly
just updated, possibly stale) `mem_total`, early break once both are found. -/
def pnmGo (nodeID : Nat) (nm : NodeMeminfo) (ft ff : Bool) : List MemLine → NodeMeminfo
  | [] => nm
  | l :: ls =>
    let step : NodeMeminfo × Bool × Bool :=
      match l with
      | .total nid v =>
        if !ft && nid == nodeID then ({ nm with mem_total := v % U32 }, true, ff)
        else (nm, ft, ff)
      | .free nid v =>
        if !ff && nid == nodeID then
          ({ nm with mem_used := usub nm.mem_total v }, ft, true)
        else (nm, ft, ff)
      | .other => (nm, ft, ff)
    if step.2.1 && step.2.2 then step.1 else pnmGo nodeID step.1 step.2.1 step.2.2 ls

/-- `parse_node_meminfo`: `fopen` failure (`none`) returns with `nm` untouched. -/
def parse_node_meminfo (nm : NodeMeminfo) (file : Option (List MemLine)) (nodeID : Nat) :
    NodeMeminfo :=
  match file with
  | none => nm
  | some lines => pnmGo nodeID nm false false lines

/-- Found-flags of `parse_node_vmstat`. -/
structure NvFlags where
  nr_free_pages : Bool := false
  numa_hit : Bool := false
  numa_miss : Bool := false
  numa_foreign : Bool := false
  numa_interleave : Bool := false
  numa_local : Bool := false
  numa_other : Bool := false
  deriving Repr, DecidableEq

/-- `found_count` of `parse_node_vmstat`. -/
def NvFlags.count (f : NvFlags) : Nat :=
  f.nr_free_pages.toNat + f.numa_hit.toNat + f.numa_miss.toNat + f.numa_foreign.toNat +
    f.numa_interleave.toNat + f.numa_local.toNat + f.numa_other.toNat

/-- The fscanf loop of `parse_node_vmstat`: key/value pairs, if/else-if chain
guarded by first-match flags, break once all 7 counters are found. -/
def pnvGo (nv : NodeVmStat) (f : NvFlags) : List (String × Nat) → NodeVmStat
  | [] => nv
  | (k, v) :: ps =>
    let step : NodeVmStat × NvFlags :=
      if !f.nr_free_pages && k == "nr_free_pages" then
        ({ nv with nr_free_pages := v % U32 }, { f with nr_free_pages := true })
      else if !f.numa_hit && k == "numa_hit" then
        ({ nv with numa_hit := v % U32 }, { f with numa_hit := true })
      else if !f.numa_miss && k == "numa_miss" then
        ({ nv with numa_miss := v % U32 }, { f with numa_miss := true })
      else if !f.numa_foreign && k == "numa_foreign" then
        ({ nv with numa_foreign := v % U32 }, { f with numa_foreign := true })
      else if !f.numa_interleave && k == "numa_interleave" then
        ({ nv with numa_interleave := v % U32 }, { f with numa_interleave := true })
      else if !f.numa_local && k == "numa_local" then
        ({ nv with numa_local := v % U32 }, { f with numa_local := true })
      else if !f.numa_other && k == "numa_other" then
        ({ nv with numa_other := v % U32 }, { f with numa_other := true })
      else (nv, f)
    if step.2.count == 7 then step.1 else pnvGo step.1 step.2 ps

/-- `parse_node_vmstat`: `fopen` failure returns with `nv` untouched. -/
def parse_node_vmstat (nv : NodeVmStat) (file : Option (List (String × Nat))) : NodeVmStat :=
  match file with
  | none => nv
  | some pairs => pnvGo nv {} pairs

/-- Found-flags of `parse_sys_vmstat`. -/
structure SvFlags where
  numa_pte_updates : Bool := false
  numa_huge_pte_updates : Bool := false
  numa_pages_migrated : Bool := false
  pgmigrate_success : Bool := false
  pgmigrate_fail : Bool := false
  thp_migration_success : Bool := false
  thp_migration_fail : Bool := false
  thp_migration_split : Bool := false
  deriving Repr, DecidableEq

/-- `found_count` of `parse_sys_vmstat`. -/
def SvFlags.count (f : SvFlags) : Nat :=
  f.numa_pte_updates.toNat + f.numa_huge_pte_updates.toNat + f.numa_pages_migrated.toNat +
    f.pgmigrate_success.toNat + f.pgmigrate_fail.toNat + f.thp_migration_success.toNat +
    f.thp_migration_fail.toNat + f.thp_migration_split.toNat

/-- The fscanf loop of `parse_sys_vmstat`: break once all 8 counters are found. -/
def psvGo (sv : SysVmStat) (f : SvFlags) : List (String × Nat) → SysVmStat
  | [] => sv
  | (k, v) :: ps =>
    let step : SysVmStat × SvFlags :=
      if !f.numa_pte_updates && k == "numa_pte_updates" then
        ({ sv with numa_pte_updates := v % U32 }, { f with numa_pte_updates := true })
      else if !f.numa_huge_pte_updates && k == "numa_huge_pte_updates" then
        ({ sv with numa_huge_pte_updates := v % U32 }, { f with numa_huge_pte_updates := true })
      else if !f.numa_pages_migrated && k == "numa_pages_migrated" then
        ({ sv with numa_pages_migrated := v % U32 }, { f with numa_pages_migrated := true })
      else if !f.pgmigrate_success && k == "pgmigrate_success" then
        ({ sv with pgmigrate_success := v % U32 }, { f with pgmigrate_success := true })
      else if !f.pgmigrate_fail && k == "pgmigrate_fail" then
        ({ sv with pgmigrate_fail := v % U32 }, { f with pgmigrate_fail := true })
      else if !f.thp_migration_success && k == "thp_migration_success" then
        ({ sv with thp_migration_success := v % U32 }, { f with thp_migration_success := true })
      else if !f.thp_migration_fail && k == "thp_migration_fail" then
        ({ sv with thp_migration_fail := v % U32 }, { f with thp_migration_fail := true })
      else if !f.thp_migration_split && k == "thp_migration_split" then
        ({ sv with thp_migration_split := v % U32 }, { f with thp_migration_split := true })
      else (sv, f)
    if step.2.count == 8 then step.1 else psvGo step.1 step.2 ps

/-- `parse_sys_vmstat`: `fopen` failure returns with `sv` untouched. -/
def parse_sys_vmstat (sv : SysVmStat) (file : Option (List (String × Nat))) : SysVmStat :=
  match file with
  | none => sv
  | some pairs => psvGo sv {} pairs

/-! ## Statistics logger: CSV strings -/

/-- Decimal rendering of an unsigned value, as printf `%u` / `%d` / `%ld`
produce for non-negative arguments. -/
def uRepr (n : Nat) : String := Nat.repr n

/-- Zero padding to a minimum width, as printf `%09ld` does for a
non-negative argument. -/
def zeroPad (w : Nat) (s : String) : String :=
  String.mk (List.replicate (w - s.length) '0') ++ s

/-- The row timestamp: `fprintf(fp, "%ld.%09ld", ts.tv_sec, ts.tv_nsec)`. -/
def tsRepr (sec nsec : Nat) : String := uRepr sec ++ "." ++ zeroPad 9 (uRepr nsec)

/-- Right-fold concatenation of string pieces (printf calls append in order;
`++` is associative so the grouping is immaterial). -/
def strConcat (l : List String) : String := l.foldr (· ++ ·) ""

/-- Per-node data chunk `fprintf(fp, ",%u,%u", nm[i].mem_total, nm[i].mem_used)`. -/
def memChunk (r : NodeMeminfo) : String :=
  "," ++ uRepr r.mem_total ++ "," ++ uRepr r.mem_used

/-- Per-node data chunk `fprintf(fp, ",%u,%u,%u,%u,%u,%u,%u", nv[i]...)`. -/
def nvChunk (r : NodeVmStat) : String :=
  "," ++ uRepr r.nr_free_pages ++ "," ++ uRepr r.numa_hit ++ "," ++ uRepr r.numa_miss ++
    "," ++ uRepr r.numa_foreign ++ "," ++ uRepr r.numa_interleave ++
    "," ++ uRepr r.numa_local ++ "," ++ uRepr r.numa_other

/-- System-wide chunk `fprintf(fp, ",%u,%u,%u,%u,%u,%u,%u,%u\n", sv...)`
(without the final newline, added by the row builder). -/
def svChunk (s : SysVmStat) : String :=
  "," ++ uRepr s.numa_pte_updates ++ "," ++ uRepr s.numa_huge_pte_updates ++
    "," ++ uRepr s.numa_pages_migrated ++ "," ++ uRepr s.pgmigrate_success ++
    "," ++ uRepr s.pgmigrate_fail ++ "," ++ uRepr s.thp_migration_success ++
    "," ++ uRepr s.thp_migration_fail ++ "," ++ uRepr s.thp_migration_split

/-- One CSV data row exactly as the fprintf sequence of the sampling loop
emits it (change_policy.c lines 384-401), newline included. -/
def rowString (sec nsec : Nat) (nm : List NodeMeminfo) (nv : List NodeVmStat)
    (sv : SysVmStat) : String :=
  tsRepr sec nsec ++ strConcat (nm.map memChunk) ++ strConcat (nv.map nvChunk) ++
    svChunk sv ++ "\n"

/-- Per-node header chunk `",node_%d_mem_total,node_%d_mem_used"`. -/
def hdrMemChunk (i : Nat) : String :=
  ",node_" ++ uRepr i ++ "_mem_total,node_" ++ uRepr i ++ "_mem_used"

/-- Per-node header chunk for the seven vmstat columns. -/
def hdrNvChunk (i : Nat) : String :=
  ",node_" ++ uRepr i ++ "_nr_free_pages,node_" ++ uRepr i ++ "_numa_hit,node_" ++
    uRepr i ++ "_numa_miss,node_" ++ uRepr i ++ "_numa_foreign,node_" ++ uRepr i ++
    "_numa_interleave,node_" ++ uRepr i ++ "_numa_local,node_" ++ uRepr i ++ "_numa_other"

/-- The eight fixed system-wide header columns. -/
def hdrSvChunk : String :=
  ",numa_pte_updates,numa_huge_pte_updates,numa_pages_migrated,pgmigrate_success,pgmigrate_fail,thp_migration_success,thp_migration_fail,thp_migration_split"

/-- The header line written by `write_csv_header`, newline included. -/
def headerString (numa_count : Nat) : String :=
  "timestamp" ++ strConcat ((List.range numa_count).map hdrMemChunk) ++
    strConcat ((List.range numa_count).map hdrNvChunk) ++ hdrSvChunk ++ "\n"

/-- `write_csv_header`: returns the file content after the call, given the
prior content (`none` = the path does not exist).  An existing file — whatever
its content — is left untouched; a fresh path receives the header. -/
def write_csv_header (existing : Option String) (numa_count : Nat) : String :=
  match existing with
  | some s => s
  | none => headerString numa_count

/-! ## Statistics logger: main -/

/-- Read-only environment of one logger run: the per-iteration contents of
the per-node meminfo and vmstat sources and of /proc/vmstat, the realtime
clock, and — in run mode — whether the end-of-iteration
`waitpid(child, ..., WNOHANG)` returns nonzero (child observed gone). -/
structure Env where
  meminfo : Nat → Nat → Option (List MemLine)
  vmstat : Nat → Nat → Option (List (String × Nat))
  sysvm : Nat → Option (List (String × Nat))
  clock : Nat → Nat × Nat
  childGone : Nat → Bool

/-- The sampling state: the malloc'd `nm` and `nv` arrays and the stack
variable `sv`.  malloc does not initialise, so a run starts from an
arbitrary state. -/
structure LogState where
  nm : List NodeMeminfo
  nv : List NodeVmStat
  sv : SysVmStat

/-- One sampling pass (loop body lines 372-382): every node's meminfo and
vmstat records are re-parsed in place, then /proc/vmstat. -/
def sampleIter (env : Env) (iter : Nat) (st : LogState) : LogState :=
  { nm := st.nm.mapIdx fun i r => parse_node_meminfo r (env.meminfo iter i) i
    nv := st.nv.mapIdx fun i r => parse_node_vmstat r (env.vmstat iter i)
    sv := parse_sys_vmstat st.sv (env.sysvm iter) }

/-- One loop iteration: sample, then build the row that is written and
flushed.  Returns the row and the post-iteration state. -/
def doIter (env : Env) (iter : Nat) (st : LogState) : String × LogState :=
  let st' := sampleIter env iter st
  (rowString (env.clock iter).1 (env.clock iter).2 st'.nm st'.nv st'.sv, st')

/-- Loop mode: `use_duration` with the precomputed iteration count, or
`use_run`. -/
inductive Mode where
  | duration (iterations : Nat)
  | run
  deriving Repr, DecidableEq

/-- The sampling loop
`for (iter = 0; use_duration ? (iter < iterations) : 1; iter++)` with the
run-mode bottom break on the WNOHANG check.  Fuel-indexed; returns the rows
written, whether the loop reached its own exit (`false` = fuel ran out
mid-loop), and the final state. -/
def loop (env : Env) (mode : Mode) : Nat → Nat → LogState → List String × Bool × LogState
  | 0, _, st => ([], false, st)
  | fuel + 1, iter, st =>
    match mode with
    | .duration n =>
      if iter < n then
        let step := doIter env iter st
        let rest := loop env mode fuel (iter + 1) step.2
        (step.1 :: rest.1, rest.2.1, rest.2.2)
      else ([], true, st)
    | .run =>
      let step := doIter env iter st
      if env.childGone iter then ([step.1], true, step.2)
      else
        let rest := loop env mode fuel (iter + 1) step.2
        (step.1 :: rest.1, rest.2.1, rest.2.2)

/-- Mode argument as parsed from argv: `-d <duration_sec>` or `-r <command>`. -/
inductive ModeArg where
  | d (duration_sec : Nat)
  | r
  deriving Repr, DecidableEq

/-- `iterations = duration_sec / interval_sec` (line 333): double division
truncated by the assignment to `int`; both operands are positive, so the
truncation is the floor. -/
def iterationsOf (duration_sec : Nat) (interval_sec : ℚ) : Nat :=
  (⌊(duration_sec : ℚ) / interval_sec⌋).toNat

/-- The sleep request built each iteration (line 406):
`struct timespec ts_sleep = { 0, (long)(interval_sec * 1e9) }`. -/
def sleepRequest (interval_sec : ℚ) : Int × Int :=
  (0, ⌊interval_sec * 1000000000⌋)

/-- nanosleep accepts a request only when `0 <= tv_nsec <= 999999999`;
otherwise it fails with EINVAL and does not sleep. -/
def timespecValid (r : Int × Int) : Bool :=
  0 ≤ r.2 && r.2 < 1000000000

/-- Seconds actually slept by `nanosleep(&ts_sleep, NULL)`: the requested
time if the timespec is valid, nothing on EINVAL. -/
def sleepSeconds (r : Int × Int) : ℚ :=
  if timespecValid r then (r.1 : ℚ) + (r.2 : ℚ) / 1000000000 else 0

/-- Observable outcome of the logger `main` from the point where the
sampling buffers were allocated and the output file opened. -/
structure RunOutcome where
  /-- final content of numa_stat_log.csv -/
  content : String
  /-- data rows appended, in order -/
  rows : List String
  /-- the loop reached its own exit condition -/
  finished : Bool
  /-- the final blocking `waitpid(child_pid, &status, 0)` was executed -/
  finalWait : Bool
  exitCode : Nat

/-- The loop mode determined by the parsed arguments: duration mode with the
precomputed iteration count, or run mode. -/
def loggerMode (interval_sec : ℚ) : ModeArg → Mode
  | .d dur => .duration (iterationsOf dur interval_sec)
  | .r => .run

/-- The logger `main` (lines 282-426) after successful argument parsing,
allocation and output open: header handling, iteration-count computation,
the sampling loop, the run-mode final wait, exit 0. -/
def loggerMain (env : Env) (numa_count : Nat) (interval_sec : ℚ) (marg : ModeArg)
    (existing : Option String) (init : LogState) (fuel : Nat) : RunOutcome :=
  let res := loop env (loggerMode interval_sec marg) fuel 0 init
  { content := write_csv_header existing numa_count ++ strConcat res.1
    rows := res.1
    finished := res.2.1
    finalWait := match marg with | .r => true | .d _ => false
    exitCode := 0 }

/-! ## Storage-engine benchmark driver (benchmark_script.sh) -/

/-- `NUM=${1:-1000}`: first positional argument, defaulting to 1000. -/
def benchNUM (arg1 : Option Int) : Int := arg1.getD 1000

/-- `THREADS=${2:-$(nproc)}` followed by `if [ "$THREADS" -lt 1 ]; then
THREADS=1; fi`. -/
def benchTHREADS (arg2 : Option Int) (nproc : Int) : Int :=
  let t := arg2.getD nproc
  if t < 1 then 1 else t

/-- The `--num` and `--threads` values passed to db_bench. -/
def dbBenchArgs (arg1 arg2 : Option Int) (nproc : Int) : Int × Int :=
  (benchNUM arg1, benchTHREADS arg2 nproc)

/-! ## Field counting (splitting a CSV line on commas) -/

/-- Split a character list at every occurrence of `c` (the separators are
dropped; `n` separators yield `n + 1` pieces). -/
def splitOnChar (c : Char) : List Char → List (List Char)
  | [] => [[]]
  | x :: xs =>
    if x = c then [] :: splitOnChar c xs
    else
      match splitOnChar c xs with
      | [] => [[x]]
      | h :: t => (x :: h) :: t

/-- Number of fields obtained by splitting a string on commas. -/
def fieldCount (s : String) : Nat := (splitOnChar ',' s.data).length

/-- Occurrences of a character in a string. -/
def charCount (c : Char) (s : String) : Nat := s.data.count c

/-! ## Concrete fixtures used by witnesses and counterexamples -/

/-- Environment in which every counter source is unreadable, the clock is
stuck at 0, and the run-mode child is observed gone at every check. -/
def envAllMissing : Env :=
  { meminfo := fun _ _ => none
    vmstat := fun _ _ => none
    sysvm := fun _ => none
    clock := fun _ => (0, 0)
    childGone := fun _ => true }

/-- An all-zero vmstat record. -/
def nvZero : NodeVmStat := ⟨0, 0, 0, 0, 0, 0, 0⟩

/-- An all-zero system vmstat record. -/
def svZero : SysVmStat := ⟨0, 0, 0, 0, 0, 0, 0, 0⟩

/-- A two-node all-zero initial state. -/
def initZero2 : LogState :=
  { nm := [⟨0, 0⟩, ⟨0, 0⟩], nv := [nvZero, nvZero], sv := svZero }

/-- A one-node state whose malloc'd meminfo garbage is nonzero. -/
def initGarbage1 : LogState :=
  { nm := [⟨7, 7⟩], nv := [nvZero], sv := svZero }

/-! ## Lemmas: node-mask construction -/

theorem orBit_length (m : List Nat) (i : Nat) : (orBit m i).length = m.length := by
  simp [orBit]

theorem maskTestBit_orBit (m : List Nat) (i j : Nat) :
    maskTestBit (orBit m i) j = true ↔
      (j = i ∧ i / wordBits < m.length) ∨ maskTestBit m j = true := by
  simp only [maskTestBit, orBit, wordBits] at *
  by_cases hlt : i / 64 < m.length
  · by_cases hw : j / 64 = i / 64
    · rw [hw, List.getD_eq_getElem?_getD, List.getElem?_set, if_pos rfl, if_pos hlt,
        Option.getD_some, Nat.testBit_or, Nat.one_shiftLeft, Nat.testBit_two_pow,
        List.getD_eq_getElem?_getD]
      simp only [Bool.or_eq_true, decide_eq_true_eq]
      constructor
      · rintro (hA | he)
        · exact Or.inr hA
        · exact Or.inl ⟨by omega, hlt⟩
      · rintro (⟨rfl, -⟩ | hA)
        · exact Or.inr rfl
        · exact Or.inl hA
    · rw [List.getD_eq_getElem?_getD, List.getElem?_set,
        if_neg (fun hh => hw hh.symm), ← List.getD_eq_getElem?_getD]
      constructor
      · exact fun hX => Or.inr hX
      · rintro (⟨rfl, -⟩ | hX)
        · exact absurd rfl hw
        · exact hX
  · rw [List.set_eq_of_length_le (Nat.le_of_not_lt hlt)]
    constructor
    · exact fun hX => Or.inr hX
    · rintro (⟨-, hbad⟩ | hX)
      · exact absurd hbad hlt
      · exact hX

theorem maskTestBit_replicate (k j : Nat) :
    maskTestBit (List.replicate k 0) j = false := by
  simp only [maskTestBit, List.getD_eq_getElem?_getD, List.getElem?_replicate]
  split <;> simp

theorem length_foldl_orBit (n : Nat) (init : List Nat) :
    ((List.range n).foldl orBit init).length = init.length := by
  induction n with
  | zero => simp
  | succ n ih =>
    rw [List.range_succ, List.foldl_append, List.foldl_cons, List.foldl_nil,
      orBit_length, ih]

theorem maskTestBit_foldl (n : Nat) (init : List Nat)
    (h : n ≤ wordBits * init.length) (j : Nat) :
    maskTestBit ((List.range n).foldl orBit init) j = true ↔
      j < n ∨ maskTestBit init j = true := by
  induction n with
  | zero => simp
  | succ n ih =>
    rw [List.range_succ, List.foldl_append, List.foldl_cons, List.foldl_nil,
      maskTestBit_orBit, length_foldl_orBit, ih (by omega)]
    have hdiv : n / wordBits < init.length := by
      simp only [wordBits] at h ⊢; omega
    constructor
    · rintro (⟨rfl, -⟩ | hlt | hB)
      · exact Or.inl (by omega)
      · exact Or.inl (by omega)
      · exact Or.inr hB
    · rintro (hlt | hB)
      · rcases Nat.lt_succ_iff_lt_or_eq.mp hlt with hlt' | rfl
        · exact Or.inr (Or.inl hlt')
        · exact Or.inl ⟨rfl, hdiv⟩
      · exact Or.inr (Or.inr hB)

/-- C5: for every nodecount N >= 1 the constructed NodeMask occupies
ceil(N / word_bits) words and has exactly bits 0..N-1 set, no bit >= N. -/
theorem nmask_exact_bits (n : Nat) (h : 1 ≤ n) :
    (buildNmask n).length = n ⌈/⌉ wordBits ∧
      ∀ j : Nat, maskTestBit (buildNmask n) j = true ↔ j < n := by
  constructor
  · rw [buildNmask, length_foldl_orBit, List.length_replicate, nmaskWords,
      Nat.ceilDiv_eq_add_pred_div]
  · intro j
    rw [buildNmask, maskTestBit_foldl _ _
      (by simp only [wordBits, nmaskWords, List.length_replicate]; omega),
      maskTestBit_replicate]
    simp

theorem nmask_exact_bits_witness :
    1 ≤ 5 ∧ ((buildNmask 5).length = 5 ⌈/⌉ wordBits ∧
      ∀ j : Nat, maskTestBit (buildNmask 5) j = true ↔ j < 5) :=
  ⟨by decide, nmask_exact_bits 5 (by decide)⟩

/-! ## Lemmas: policy invocation tool exit behaviour -/

/-- C4: with at least 3 arguments and a successful mask allocation, a failing
OS request is reported on stderr via perror yet the tool exits 0. -/
theorem change_policy_request_failure_exit0 (nargs : Nat) (ret : Int)
    (h3 : 3 ≤ nargs) (hr : ret ≠ 0) :
    (change_policy_main nargs true ret).syscallErrorReported = true ∧
      (change_policy_main nargs true ret).exitCode = 0 := by
  simp [change_policy_main, Nat.not_lt.mpr h3, hr]

theorem change_policy_request_failure_exit0_witness :
    3 ≤ 3 ∧ (-1 : Int) ≠ 0 ∧
      ((change_policy_main 3 true (-1)).syscallErrorReported = true ∧
        (change_policy_main 3 true (-1)).exitCode = 0) :=
  ⟨by decide, by decide, change_policy_request_failure_exit0 3 (-1) (by decide) (by decide)⟩

/-! ## Lemmas: benchmark driver defaults -/

/-- C9: with no arguments the driver passes num = 1000 and
threads = detected core count floored to a minimum of 1. -/
theorem bench_defaults (nproc : Int) :
    dbBenchArgs none none nproc = (1000, max 1 nproc) := by
  simp only [dbBenchArgs, benchNUM, benchTHREADS, Option.getD_none]
  split <;> (rw [Prod.mk.injEq]; exact ⟨rfl, by omega⟩)

/-! ## Lemmas: the sleep request -/

/-- C3 (code evaluated at the failing input): at interval_sec = 2 the logger
builds the timespec (0, 2000000000); tv_nsec exceeds 999999999, so nanosleep
rejects it with EINVAL and sleeps 0 seconds, not the 2 seconds claimed. -/
theorem sleep_request_invalid_at_two :
    sleepRequest 2 = (0, 2000000000) ∧
      timespecValid (sleepRequest 2) = false ∧
      sleepSeconds (sleepRequest 2) = 0 ∧
      sleepSeconds (sleepRequest 2) ≠ 2 := by
  refine ⟨by norm_num [sleepRequest], ?_, ?_, ?_⟩ <;>
    norm_num [sleepRequest, sleepSeconds, timespecValid]

/-! ## Lemmas: counting characters and splitting on commas -/

theorem splitOnChar_length (c : Char) (l : List Char) :
    (splitOnChar c l).length = l.count c + 1 := by
  induction l with
  | nil => simp [splitOnChar]
  | cons x xs ih =>
    by_cases hx : x = c
    · simp [splitOnChar, hx, ih, List.count_cons]
    · have hne : splitOnChar c xs ≠ [] := by
        intro hnil
        rw [hnil] at ih
        simp at ih
      cases hsp : splitOnChar c xs with
      | nil => exact absurd hsp hne
      | cons h t =>
        rw [splitOnChar, if_neg hx, hsp]
        rw [hsp] at ih
        simp only [List.length_cons] at ih ⊢
        simp [List.count_cons, hx, ← ih]

theorem fieldCount_eq_charCount (s : String) :
    fieldCount s = charCount ',' s + 1 := by
  rw [fieldCount, charCount, splitOnChar_length]

theorem charCount_append (c : Char) (a b : String) :
    charCount c (a ++ b) = charCount c a + charCount c b := by
  simp [charCount, String.data_append]

theorem charCount_strConcat (c : Char) (l : List String) :
    charCount c (strConcat l) = (l.map (charCount c)).sum := by
  induction l with
  | nil => simp [strConcat, charCount]
  | cons x xs ih =>
    have hstep : strConcat (x :: xs) = x ++ strConcat xs := rfl
    rw [hstep, charCount_append, ih, List.map_cons, List.sum_cons]

theorem sum_map_const {α : Type} (l : List α) (k : Nat) (f : α → Nat)
    (h : ∀ x ∈ l, f x = k) : (l.map f).sum = k * l.length := by
  induction l with
  | nil => simp
  | cons x xs ih =>
    rw [List.map_cons, List.sum_cons, ih (fun y hy => h y (List.mem_cons_of_mem x hy)),
      h x (List.mem_cons_self x xs), List.length_cons]
    ring

/-! ## Lemmas: decimal renderings are digit strings -/

theorem digitChar_isDigit (m : Nat) (h : m < 10) :
    (Nat.digitChar m).isDigit = true := by
  interval_cases m <;> decide

theorem toDigitsCore_isDigit (fuel : Nat) :
    ∀ (n : Nat) (ds : List Char), (∀ c ∈ ds, c.isDigit = true) →
      ∀ c ∈ Nat.toDigitsCore 10 fuel n ds, c.isDigit = true := by
  induction fuel with
  | zero =>
    intro n ds hds c hc
    rw [Nat.toDigitsCore] at hc
    exact hds c hc
  | succ fuel ih =>
    intro n ds hds c hc
    rw [Nat.toDigitsCore] at hc
    have hcons : ∀ c' ∈ Nat.digitChar (n % 10) :: ds, c'.isDigit = true := by
      intro c' hc'
      rcases List.mem_cons.mp hc' with rfl | hmem
      · exact digitChar_isDigit _ (Nat.mod_lt _ (by decide))
      · exact hds c' hmem
    by_cases h0 : n / 10 = 0
    · simp only [h0, if_pos] at hc
      exact hcons c hc
    · simp only [if_neg h0] at hc
      exact ih _ _ hcons c hc

theorem uRepr_data (n : Nat) : (uRepr n).data = Nat.toDigits 10 n := rfl

theorem uRepr_isDigit (n : Nat) : ∀ c ∈ (uRepr n).data, c.isDigit = true := by
  rw [uRepr_data, Nat.toDigits]
  exact toDigitsCore_isDigit (n + 1) n [] (by simp)

theorem charCount_uRepr (c : Char) (n : Nat) (hc : c.isDigit = false) :
    charCount c (uRepr n) = 0 := by
  rw [charCount, List.count_eq_zero]
  intro hmem
  have := uRepr_isDigit n c hmem
  rw [hc] at this
  exact Bool.false_ne_true this

theorem toDigitsCore_length_le (fuel : Nat) :
    ∀ (n k : Nat) (ds : List Char), n < 10 ^ k → 1 ≤ k →
      (Nat.toDigitsCore 10 fuel n ds).length ≤ k + ds.length := by
  induction fuel with
  | zero =>
    intro n k ds _ _
    rw [Nat.toDigitsCore]
    omega
  | succ fuel ih =>
    intro n k ds hn hk
    rw [Nat.toDigitsCore]
    by_cases h0 : n / 10 = 0
    · simp only [h0, if_pos, List.length_cons]
      omega
    · simp only [if_neg h0]
      have hn10 : 10 ≤ n := by
        by_contra hlt
        exact h0 (Nat.div_eq_of_lt (by omega))
      have hk2 : 2 ≤ k := by
        by_contra hlt
        have hk1 : k = 1 := by omega
        rw [hk1, pow_one] at hn
        omega
      have hdiv : n / 10 < 10 ^ (k - 1) := by
        rw [Nat.div_lt_iff_lt_mul (by decide : 0 < 10)]
        calc n < 10 ^ k := hn
        _ = 10 ^ (k - 1) * 10 := by
            rw [← pow_succ]
            congr 1
            omega
      have := ih (n / 10) (k - 1) (Nat.digitChar (n % 10) :: ds) hdiv (by omega)
      simp only [List.length_cons] at this
      omega

theorem uRepr_length_le (n k : Nat) (hn : n < 10 ^ k) (hk : 1 ≤ k) :
    (uRepr n).length ≤ k := by
  have hdata : (uRepr n).length = (Nat.toDigits 10 n).length := rfl
  rw [hdata, Nat.toDigits]
  have := toDigitsCore_length_le (n + 1) n k [] hn hk
  simpa using this

theorem zeroPad_length (w : Nat) (s : String) (h : s.length ≤ w) :
    (zeroPad w s).length = w := by
  rw [zeroPad, String.length_append]
  have hmk : (String.mk (List.replicate (w - s.length) '0')).length = w - s.length := by
    rw [String.length_mk, List.length_replicate]
  omega

theorem charCount_zeroPad (c : Char) (w : Nat) (s : String) (hc : c ≠ '0') :
    charCount c (zeroPad w s) = charCount c s := by
  rw [zeroPad, charCount_append]
  have hbeq : ('0' == c) = false := beq_eq_false_iff_ne.mpr (fun h => hc h.symm)
  have : charCount c (String.mk (List.replicate (w - s.length) '0')) = 0 := by
    simp only [charCount]
    rw [List.count_replicate, hbeq]
    simp
  omega

theorem charCount_comma_uRepr (n : Nat) : charCount ',' (uRepr n) = 0 :=
  charCount_uRepr ',' n (by decide)

theorem charCount_nl_uRepr (n : Nat) : charCount '\n' (uRepr n) = 0 :=
  charCount_uRepr '\n' n (by decide)

theorem charCount_comma_zeroPad (w : Nat) (s : String) :
    charCount ',' (zeroPad w s) = charCount ',' s :=
  charCount_zeroPad ',' w s (by decide)

theorem charCount_comma_tsRepr (sec nsec : Nat) :
    charCount ',' (tsRepr sec nsec) = 0 := by
  simp only [tsRepr, charCount_append, charCount_comma_zeroPad, charCount_comma_uRepr]
  decide

theorem charCount_comma_memChunk (r : NodeMeminfo) :
    charCount ',' (memChunk r) = 2 := by
  simp only [memChunk, charCount_append, charCount_comma_uRepr]
  decide

theorem charCount_comma_nvChunk (r : NodeVmStat) :
    charCount ',' (nvChunk r) = 7 := by
  simp only [nvChunk, charCount_append, charCount_comma_uRepr]
  decide

theorem charCount_comma_svChunk (s : SysVmStat) :
    charCount ',' (svChunk s) = 8 := by
  simp only [svChunk, charCount_append, charCount_comma_uRepr]
  decide

theorem charCount_comma_rowString (sec nsec : Nat) (nm : List NodeMeminfo)
    (nv : List NodeVmStat) (sv : SysVmStat) :
    charCount ',' (rowString sec nsec nm nv sv) =
      2 * nm.length + 7 * nv.length + 8 := by
  simp only [rowString, charCount_append, charCount_comma_tsRepr,
    charCount_comma_svChunk, charCount_strConcat, List.map_map, Function.comp_def]
  rw [sum_map_const nm 2 _ (fun x _ => charCount_comma_memChunk x),
    sum_map_const nv 7 _ (fun x _ => charCount_comma_nvChunk x)]
  have hnl : charCount ',' "\n" = 0 := by decide
  omega

theorem charCount_comma_hdrMemChunk (i : Nat) :
    charCount ',' (hdrMemChunk i) = 2 := by
  simp only [hdrMemChunk, charCount_append, charCount_comma_uRepr]
  decide

theorem charCount_comma_hdrNvChunk (i : Nat) :
    charCount ',' (hdrNvChunk i) = 7 := by
  simp only [hdrNvChunk, charCount_append, charCount_comma_uRepr]
  decide

theorem charCount_comma_headerString (n : Nat) :
    charCount ',' (headerString n) = 9 * n + 8 := by
  simp only [headerString, charCount_append, charCount_strConcat, List.map_map,
    Function.comp_def]
  rw [sum_map_const (List.range n) 2 _ (fun x _ => charCount_comma_hdrMemChunk x),
    sum_map_const (List.range n) 7 _ (fun x _ => charCount_comma_hdrNvChunk x)]
  have h1 : charCount ',' "timestamp" = 0 := by decide
  have h2 : charCount ',' hdrSvChunk = 8 := by decide
  have h3 : charCount ',' "\n" = 0 := by decide
  rw [List.length_range]
  omega

theorem charCount_nl_zeroPad (w : Nat) (s : String) :
    charCount '\n' (zeroPad w s) = charCount '\n' s :=
  charCount_zeroPad '\n' w s (by decide)

theorem charCount_nl_headerString (n : Nat) :
    charCount '\n' (headerString n) = 1 := by
  simp only [headerString, charCount_append, charCount_strConcat, List.map_map,
    Function.comp_def]
  have hm : ∀ x ∈ List.range n, charCount '\n' (hdrMemChunk x) = 0 := by
    intro x _
    simp only [hdrMemChunk, charCount_append, charCount_nl_uRepr]
    decide
  have hv : ∀ x ∈ List.range n, charCount '\n' (hdrNvChunk x) = 0 := by
    intro x _
    simp only [hdrNvChunk, charCount_append, charCount_nl_uRepr]
    decide
  rw [sum_map_const (List.range n) 0 _ hm, sum_map_const (List.range n) 0 _ hv]
  have h1 : charCount '\n' "timestamp" = 0 := by decide
  have h2 : charCount '\n' hdrSvChunk = 0 := by decide
  have h3 : charCount '\n' "\n" = 1 := by decide
  omega

/-! ## Lemmas: the sampling loop -/

theorem sampleIter_nm_length (env : Env) (k : Nat) (st : LogState) :
    (sampleIter env k st).nm.length = st.nm.length := by
  simp [sampleIter]

theorem sampleIter_nv_length (env : Env) (k : Nat) (st : LogState) :
    (sampleIter env k st).nv.length = st.nv.length := by
  simp [sampleIter]

theorem loop_rows_shape (env : Env) (mode : Mode) :
    ∀ (fuel iter : Nat) (st : LogState) (row : String),
      row ∈ (loop env mode fuel iter st).1 →
      ∃ (k : Nat) (st' : LogState),
        st'.nm.length = st.nm.length ∧ st'.nv.length = st.nv.length ∧
          row = rowString (env.clock k).1 (env.clock k).2 st'.nm st'.nv st'.sv := by
  intro fuel
  induction fuel with
  | zero =>
    intro iter st row h
    simp [loop] at h
  | succ fuel ih =>
    intro iter st row h
    have hstep : ∀ hrow : row = (doIter env iter st).1,
        ∃ (k : Nat) (st' : LogState),
          st'.nm.length = st.nm.length ∧ st'.nv.length = st.nv.length ∧
            row = rowString (env.clock k).1 (env.clock k).2 st'.nm st'.nv st'.sv := by
      intro hrow
      exact ⟨iter, sampleIter env iter st, sampleIter_nm_length env iter st,
        sampleIter_nv_length env iter st, hrow⟩
    have hrec : ∀ hrow : row ∈ (loop env mode fuel (iter + 1) (doIter env iter st).2).1,
        ∃ (k : Nat) (st' : LogState),
          st'.nm.length = st.nm.length ∧ st'.nv.length = st.nv.length ∧
            row = rowString (env.clock k).1 (env.clock k).2 st'.nm st'.nv st'.sv := by
      intro hrow
      obtain ⟨k, st', h1, h2, h3⟩ := ih (iter + 1) (doIter env iter st).2 row hrow
      refine ⟨k, st', ?_, ?_, h3⟩
      · rw [h1]
        exact sampleIter_nm_length env iter st
      · rw [h2]
        exact sampleIter_nv_length env iter st
    cases mode with
    | duration n =>
      simp only [loop] at h
      by_cases hlt : iter < n
      · rw [if_pos hlt] at h
        rcases List.mem_cons.mp h with hrow | hrow
        · exact hstep hrow
        · exact hrec hrow
      · rw [if_neg hlt] at h
        simp at h
    | run =>
      simp only [loop] at h
      by_cases hg : env.childGone iter = true
      · rw [if_pos hg] at h
        rcases List.mem_cons.mp h with hrow | hrow
        · exact hstep hrow
        · simp at hrow
      · rw [if_neg hg] at h
        rcases List.mem_cons.mp h with hrow | hrow
        · exact hstep hrow
        · exact hrec hrow

theorem loggerMain_rows (env : Env) (n : Nat) (iv : ℚ) (marg : ModeArg)
    (existing : Option String) (init : LogState) (fuel : Nat) :
    (loggerMain env n iv marg existing init fuel).rows =
      (loop env (loggerMode iv marg) fuel 0 init).1 := rfl

theorem loggerMain_finished (env : Env) (n : Nat) (iv : ℚ) (marg : ModeArg)
    (existing : Option String) (init : LogState) (fuel : Nat) :
    (loggerMain env n iv marg existing init fuel).finished =
      (loop env (loggerMode iv marg) fuel 0 init).2.1 := rfl

theorem loop_duration_count (env : Env) (n : Nat) :
    ∀ (fuel iter : Nat) (st : LogState), n - iter < fuel →
      (loop env (.duration n) fuel iter st).1.length = n - iter ∧
      (loop env (.duration n) fuel iter st).2.1 = true := by
  intro fuel
  induction fuel with
  | zero =>
    intro iter st h
    omega
  | succ fuel ih =>
    intro iter st h
    by_cases hlt : iter < n
    · have hrec := ih (iter + 1) (doIter env iter st).2 (by omega)
      simp only [loop, if_pos hlt, List.length_cons]
      refine ⟨?_, hrec.2⟩
      rw [hrec.1]
      omega
    · simp only [loop, if_neg hlt]
      refine ⟨?_, trivial⟩
      simp only [List.length_nil]
      omega

/-- C1: in duration mode the number of data rows written equals
floor(duration_seconds / interval_seconds), the precomputed iteration
count, and the loop runs to completion. -/
theorem duration_mode_row_count (env : Env) (n : Nat) (i : ℚ) (dur : Nat)
    (existing : Option String) (init : LogState) (fuel : Nat)
    (hfuel : iterationsOf dur i < fuel) :
    (loggerMain env n i (.d dur) existing init fuel).rows.length = iterationsOf dur i ∧
      (loggerMain env n i (.d dur) existing init fuel).finished = true := by
  have h := loop_duration_count env (iterationsOf dur i) fuel 0 init (by omega)
  constructor
  · rw [loggerMain_rows]
    have h1 : (loop env (loggerMode i (.d dur)) fuel 0 init).1.length =
        iterationsOf dur i - 0 := h.1
    omega
  · rw [loggerMain_finished]
    exact h.2

theorem duration_mode_row_count_witness :
    iterationsOf 1 (1 / 10) < 20 ∧
      ((loggerMain envAllMissing 2 (1 / 10) (.d 1) none initZero2 20).rows.length =
          iterationsOf 1 (1 / 10) ∧
        (loggerMain envAllMissing 2 (1 / 10) (.d 1) none initZero2 20).finished = true) ∧
      10 ≤ iterationsOf 1 (1 / 10) := by
  have h1 : iterationsOf 1 (1 / 10) < 20 := by norm_num [iterationsOf]
  have h2 : 10 ≤ iterationsOf 1 (1 / 10) := by norm_num [iterationsOf]
  exact ⟨h1, duration_mode_row_count envAllMissing 2 (1 / 10) 1 none initZero2 20 h1, h2⟩

/-- C7: every data row splits on commas into 1 + 2n + 7n + 8 fields, the same
count as the header for the run's numa_count, and starts with a timestamp of
the form unix_seconds "." nine-digit nanoseconds. -/
theorem row_field_count (env : Env) (n : Nat) (iv : ℚ) (marg : ModeArg)
    (existing : Option String) (init : LogState) (fuel : Nat) (row : String)
    (hnm : init.nm.length = n) (hnv : init.nv.length = n)
    (hclock : ∀ k, (env.clock k).2 < 10 ^ 9)
    (hrow : row ∈ (loggerMain env n iv marg existing init fuel).rows) :
    fieldCount row = 1 + 2 * n + 7 * n + 8 ∧
      fieldCount (headerString n) = 1 + 2 * n + 7 * n + 8 ∧
      ∃ sec nsec rest, row = tsRepr sec nsec ++ rest ∧
        tsRepr sec nsec = uRepr sec ++ "." ++ zeroPad 9 (uRepr nsec) ∧
        (zeroPad 9 (uRepr nsec)).length = 9 := by
  rw [loggerMain_rows] at hrow
  obtain ⟨k, st', h1, h2, h3⟩ := loop_rows_shape env (loggerMode iv marg) fuel 0 init row hrow
  refine ⟨?_, ?_, ?_⟩
  · rw [h3, fieldCount_eq_charCount, charCount_comma_rowString, h1, h2, hnm, hnv]
    omega
  · rw [fieldCount_eq_charCount, charCount_comma_headerString]
    omega
  · refine ⟨(env.clock k).1, (env.clock k).2,
      strConcat (st'.nm.map memChunk) ++ strConcat (st'.nv.map nvChunk) ++
        svChunk st'.sv ++ "\n", ?_, rfl, ?_⟩
    · rw [h3, rowString]
      simp [String.append_assoc]
    · exact zeroPad_length 9 _ (uRepr_length_le _ 9 (hclock k) (by norm_num))

theorem row_field_count_witness :
    initZero2.nm.length = 2 ∧ initZero2.nv.length = 2 ∧
      (∀ k, (envAllMissing.clock k).2 < 10 ^ 9) ∧
      rowString 0 0 initZero2.nm initZero2.nv initZero2.sv ∈
        (loggerMain envAllMissing 2 1 .r none initZero2 1).rows ∧
      (fieldCount (rowString 0 0 initZero2.nm initZero2.nv initZero2.sv) =
          1 + 2 * 2 + 7 * 2 + 8 ∧
        fieldCount (headerString 2) = 1 + 2 * 2 + 7 * 2 + 8 ∧
        ∃ sec nsec rest,
          rowString 0 0 initZero2.nm initZero2.nv initZero2.sv = tsRepr sec nsec ++ rest ∧
            tsRepr sec nsec = uRepr sec ++ "." ++ zeroPad 9 (uRepr nsec) ∧
            (zeroPad 9 (uRepr nsec)).length = 9) :=
  ⟨by decide, by decide, fun _ => by norm_num [envAllMissing], by decide,
    row_field_count envAllMissing 2 1 .r none initZero2 1
      (rowString 0 0 initZero2.nm initZero2.nv initZero2.sv)
      (by decide) (by decide) (fun _ => by norm_num [envAllMissing]) (by decide)⟩

/-- C6: a fresh output path receives exactly one header row (the header is a
single line) and the run's content is that header followed by the data rows;
an existing path is left untouched and only data rows are appended, for every
prior content whatever its column count. -/
theorem header_behavior (env : Env) (n : Nat) (iv : ℚ) (marg : ModeArg)
    (init : LogState) (fuel : Nat) :
    (write_csv_header none n = headerString n ∧
        charCount '\n' (headerString n) = 1 ∧
        (loggerMain env n iv marg none init fuel).content =
          headerString n ++ strConcat (loggerMain env n iv marg none init fuel).rows) ∧
      ∀ s : String,
        write_csv_header (some s) n = s ∧
          (loggerMain env n iv marg (some s) init fuel).content =
            s ++ strConcat (loggerMain env n iv marg (some s) init fuel).rows :=
  ⟨⟨rfl, charCount_nl_headerString n, rfl⟩, fun _ => ⟨rfl, rfl⟩⟩

theorem loop_run_count (env : Env) :
    ∀ (fuel iter : Nat) (st : LogState) (e : Nat),
      (∀ k, e ≤ k → env.childGone k = true) → iter ≤ e → e - iter < fuel →
      (loop env .run fuel iter st).2.1 = true ∧
      (loop env .run fuel iter st).1.length ≤ e + 1 - iter := by
  intro fuel
  induction fuel with
  | zero =>
    intro iter st e _ _ h
    omega
  | succ fuel ih =>
    intro iter st e hobs hle h
    by_cases hg : env.childGone iter = true
    · simp only [loop, if_pos hg]
      refine ⟨trivial, ?_⟩
      simp only [List.length_singleton]
      omega
    · have hlt : iter < e := by
        rcases Nat.lt_or_ge iter e with h' | h'
        · exact h'
        · exact absurd (hobs iter h') hg
      have hrec := ih (iter + 1) (doIter env iter st).2 e hobs (by omega) (by omega)
      simp only [loop, if_neg hg, List.length_cons]
      refine ⟨hrec.1, ?_⟩
      have := hrec.2
      omega

/-- C8: in run mode, once the child's exit is observable by the end-of-iteration
non-blocking check, the loop ends within one further iteration, the blocking
reap is always performed, and the logger exits 0. -/
theorem run_mode_termination (env : Env) (n : Nat) (iv : ℚ)
    (existing : Option String) (init : LogState) (fuel e : Nat)
    (hobs : ∀ k, e ≤ k → env.childGone k = true) (hfuel : e < fuel) :
    (loggerMain env n iv .r existing init fuel).finished = true ∧
      (loggerMain env n iv .r existing init fuel).rows.length ≤ e + 1 ∧
      (loggerMain env n iv .r existing init fuel).finalWait = true ∧
      (loggerMain env n iv .r existing init fuel).exitCode = 0 := by
  have h := loop_run_count env fuel 0 init e hobs (Nat.zero_le e) (by omega)
  refine ⟨?_, ?_, rfl, rfl⟩
  · rw [loggerMain_finished]
    exact h.1
  · rw [loggerMain_rows]
    have h2 : (loop env (loggerMode iv .r) fuel 0 init).1.length ≤ e + 1 - 0 := h.2
    omega

theorem run_mode_termination_witness :
    (∀ k : Nat, 0 ≤ k → envAllMissing.childGone k = true) ∧ 0 < 1 ∧
      ((loggerMain envAllMissing 1 1 .r none initGarbage1 1).finished = true ∧
        (loggerMain envAllMissing 1 1 .r none initGarbage1 1).rows.length ≤ 0 + 1 ∧
        (loggerMain envAllMissing 1 1 .r none initGarbage1 1).finalWait = true ∧
        (loggerMain envAllMissing 1 1 .r none initGarbage1 1).exitCode = 0) :=
  ⟨fun _ _ => rfl, by decide,
    run_mode_termination envAllMissing 1 1 none initGarbage1 1 0 (fun _ _ => rfl) (by decide)⟩

/-- C10: in run mode, whenever the sampling loop is reached at least one data
row is written, even when the child is already observed gone at the very first
end-of-iteration check (the check follows the write and flush). -/
theorem run_mode_first_row (env : Env) (n : Nat) (iv : ℚ)
    (existing : Option String) (init : LogState) (fuel : Nat) (hfuel : 1 ≤ fuel) :
    1 ≤ (loggerMain env n iv .r existing init fuel).rows.length := by
  rw [loggerMain_rows]
  cases fuel with
  | zero => omega
  | succ fuel =>
    show 1 ≤ (loop env .run (fuel + 1) 0 init).1.length
    by_cases hg : env.childGone 0 = true
    · simp only [loop, if_pos hg, List.length_singleton]
      omega
    · simp only [loop, if_neg hg, List.length_cons]
      omega

theorem run_mode_first_row_witness :
    1 ≤ 1 ∧ 1 ≤ (loggerMain envAllMissing 1 1 .r none initZero2 1).rows.length :=
  ⟨by decide, run_mode_first_row envAllMissing 1 1 none initZero2 1 (by decide)⟩

theorem pnmGo_no_match (i : Nat) (lines : List MemLine) :
    ∀ (nm : NodeMeminfo) (ft ff : Bool),
      (∀ l ∈ lines, l.matchesNode i = false) → pnmGo i nm ft ff lines = nm := by
  induction lines with
  | nil =>
    intro nm ft ff _
    rfl
  | cons l ls ih =>
    intro nm ft ff h
    have hl := h l (List.mem_cons_self l ls)
    have hls : ∀ l' ∈ ls, l'.matchesNode i = false :=
      fun l' hl' => h l' (List.mem_cons_of_mem l hl')
    cases l with
    | total nid v =>
      simp only [MemLine.matchesNode] at hl
      simp only [pnmGo, hl, Bool.and_false, Bool.false_eq_true, if_false]
      split
      · rfl
      · exact ih nm ft ff hls
    | free nid v =>
      simp only [MemLine.matchesNode] at hl
      simp only [pnmGo, hl, Bool.and_false, Bool.false_eq_true, if_false]
      split
      · rfl
      · exact ih nm ft ff hls
    | other =>
      simp only [pnmGo]
      split
      · rfl
      · exact ih nm ft ff hls

/-- C2 (amended): a missing per-node meminfo source, or one lacking the
node's lines, leaves the node's mem_total and mem_used at their previous
value — on the first iteration that is the indeterminate content of the
uninitialised malloc'd buffer, not necessarily zero — and source
availability never affects the logger's exit status. -/
theorem meminfo_missing_keeps_value (nm : NodeMeminfo) (lines : List MemLine) (i : Nat)
    (h : ∀ l ∈ lines, l.matchesNode i = false) :
    parse_node_meminfo nm none i = nm ∧
      parse_node_meminfo nm (some lines) i = nm ∧
      ∀ (env : Env) (n : Nat) (iv : ℚ) (marg : ModeArg) (existing : Option String)
        (init : LogState) (fuel : Nat),
        (loggerMain env n iv marg existing init fuel).exitCode = 0 :=
  ⟨rfl, pnmGo_no_match i lines nm false false h, fun _ _ _ _ _ _ _ => rfl⟩

theorem meminfo_missing_keeps_value_witness :
    (∀ l ∈ [MemLine.total 1 5, MemLine.other], l.matchesNode 0 = false) ∧
      (parse_node_meminfo ⟨3, 4⟩ none 0 = ⟨3, 4⟩ ∧
        parse_node_meminfo ⟨3, 4⟩ (some [MemLine.total 1 5, MemLine.other]) 0 = ⟨3, 4⟩ ∧
        ∀ (env : Env) (n : Nat) (iv : ℚ) (marg : ModeArg) (existing : Option String)
          (init : LogState) (fuel : Nat),
          (loggerMain env n iv marg existing init fuel).exitCode = 0) :=
  ⟨by decide, meminfo_missing_keeps_value ⟨3, 4⟩ [MemLine.total 1 5, MemLine.other] 0 (by decide)⟩

/-- C2 counterexample: with every meminfo source missing, after the first
sampling iteration the node's fields hold the malloc garbage (here 7), not
zero as the claim states, and the first row prints that garbage. -/
theorem meminfo_first_iter_not_zero :
    (doIter envAllMissing 0 initGarbage1).2.nm = [⟨7, 7⟩] ∧
      (doIter envAllMissing 0 initGarbage1).2.nm ≠ [⟨0, 0⟩] ∧
      (doIter envAllMissing 0 initGarbage1).1 =
        "0.000000000,7,7,0,0,0,0,0,0,0,0,0,0,0,0,0,0,0\n" :=
  ⟨by decide, by decide, by decide⟩

end NVL
